import Mathlib

/-!
Verification of the tcli web-content discovery engine (src/main.cpp).

The engine's pure core is shallowly embedded here:
* `combineUrl`  — URL resolver (main.cpp:461-473)
* `extractLinks` — anchor-href extractor built on the C++ regex
  `<a\s+(?:[^>]*?\s+)?href="([^"]*)"` with icase (main.cpp:475-484)
* `classify` / `Signals` — the five-signal candidate classifier used by
  `enumerateDirectories` (main.cpp:551-587)
* `enumerate` — the recursive enumerator (main.cpp:501-613); HTTP is
  modelled as a function `world : String → String` from URL to body
  (empty string = failure, exactly as the code collapses the two), the
  status probe as `statusWorld`, `rand()` as a stream `randf`; the
  concurrent probe tasks and recursive branches are modelled as one
  sequential linearization (all shared-state updates in the code happen
  under `visMutex`/`foundMutex`, and the probed names are pairwise
  distinct, so the set contents are deterministic)
* `listGo` — the flat recursive lister (main.cpp:615-660)

Strings are Lean `String`s; C++ `char` bytes are modelled as characters
(faithful for the ASCII data the code manipulates).
-/

namespace TCLI

/-- ASCII lower-casing, as C++ `std::regex` `icase` does for byte input. -/
def lowc (c : Char) : Char :=
  if 'A' ≤ c ∧ c ≤ 'Z' then Char.ofNat (c.toNat + 32) else c

/-- Case-insensitive character comparison (regex `icase`). -/
def lowEq (a b : Char) : Bool := lowc a == lowc b

/-- `isPrefixL pat l` : `pat` is a literal (case-sensitive) leading part of `l`. -/
def isPrefixL : List Char → List Char → Bool
  | [], _ => true
  | _ :: _, [] => false
  | p :: ps, c :: cs => (c == p) && isPrefixL ps cs

/-- Strip a literal (case-sensitive) leading part, `none` if absent. -/
def stripL : List Char → List Char → Option (List Char)
  | [], l => some l
  | _ :: _, [] => none
  | p :: ps, c :: cs => if c == p then stripL ps cs else none

/-- Strip a case-insensitive leading part, `none` if absent. -/
def stripCI : List Char → List Char → Option (List Char)
  | [], l => some l
  | _ :: _, [] => none
  | p :: ps, c :: cs => if lowEq c p then stripCI ps cs else none

/-- `containsL hay pat` : `std::string::find(pat) != npos`. -/
def containsL (hay pat : List Char) : Bool :=
  isPrefixL pat hay ||
    (match hay with
     | [] => false
     | _ :: t => containsL t pat)

/-- `s.find(pat) != std::string::npos` on `String`s. -/
def strContains (s pat : String) : Bool := containsL s.toList pat.toList

/-- `startsWith(str, prefix)` (main.cpp:85-87). -/
def startsWithS (str pre : String) : Bool := isPrefixL pre.toList str.toList

/-- `s.substr(0, n)` (byte prefix, modelled on characters). -/
def strTake (s : String) (n : Nat) : String := String.mk (s.toList.take n)

/-- `!s.empty() && s.back() == '/'` test. -/
def endsSlash (s : String) : Bool :=
  match s.toList.reverse with
  | '/' :: _ => true
  | _ => false

/-- The regex whitespace class: C++ `\s` on bytes in the "C" locale,
i.e. space, tab, newline, vertical tab, form feed, carriage return. -/
def wsChar (c : Char) : Bool :=
  c == ' ' || c == '\t' || c == '\n' || c == '\x0b' || c == '\x0c' || c == '\r'

/-- Length of the leading whitespace run. -/
def wsCount (l : List Char) : Nat := (l.takeWhile wsChar).length

/- ------------------------------------------------------------------
URL resolver: `combineUrl` (main.cpp:461-473).
------------------------------------------------------------------ -/

/-- `if (!b.empty() && b.back() == '/') b.pop_back();` -/
def stripTrailingSlash (b : String) : String :=
  match b.toList.reverse with
  | '/' :: _ => String.mk b.toList.dropLast
  | _ => b

/-- `"://"` then a maximal nonempty run of `[^/]`, prefixed by `pre`. -/
def hostTake (pre r : List Char) : Option (List Char) :=
  match stripL (String.toList "://") r with
  | none => none
  | some r2 =>
    let host := r2.takeWhile (fun c => c != '/')
    if host.isEmpty then none else some (pre ++ String.toList "://" ++ host)

/-- `regex_search(b, match, "^https?://[^/]+")`: the anchored greedy match,
`https` tried before `http` (greedy `s?`), returning `match.str(0)`. -/
def schemeHostL (l : List Char) : Option (List Char) :=
  match stripL (String.toList "http") l with
  | none => none
  | some r =>
    match r with
    | 's' :: r2 =>
      (match hostTake (String.toList "https") r2 with
       | some h => some h
       | none => hostTake (String.toList "http") r)
    | _ => hostTake (String.toList "http") r

def schemeHost (b : String) : Option String := (schemeHostL b.toList).map String.mk

/-- `relative[0] == '/'` on a string already known nonempty. -/
def headIsSlash (rel : String) : Bool :=
  match rel.toList with
  | '/' :: _ => true
  | _ => false

/-- `combineUrl` (main.cpp:461-473): joins a base URL and a relative link. -/
def combineUrl (base relative : String) : String :=
  if relative = "" then base
  else if startsWithS relative "http://" || startsWithS relative "https://" then relative
  else
    let b := stripTrailingSlash base
    if headIsSlash relative then
      match schemeHost b with
      | some p => p ++ relative
      | none => b ++ relative
    else b ++ "/" ++ relative

example : combineUrl "http://h.com/a" "/b" = "http://h.com/b" := by decide
example : combineUrl "http://h.com/a/" "c" = "http://h.com/a/c" := by decide
example : combineUrl "x" "" = "x" := by decide
example : combineUrl "http://a" "https://b/c" = "https://b/c" := by decide
example : combineUrl "nonsense" "/b" = "nonsense/b" := by decide
example : combineUrl "https://h/a" "/b" = "https://h/b" := by decide

/- ------------------------------------------------------------------
Link extractor: `extractLinks` (main.cpp:475-484).
The C++ regex is `<a\s+(?:[^>]*?\s+)?href="([^"]*)"` with `icase`,
iterated with `sregex_iterator` (leftmost matches, non-overlapping).
The backtracking order of the ECMAScript engine is modelled exactly:
after `<a` the greedy `\s+` takes the maximal run (shorter splits of the
run reach no new `href="` positions, so only the maximal split is
explored here); then the greedy optional group is tried first, with its
lazy `[^>]*?` expanding from the shortest, the inner `\s+` greedy; only
if the whole group fails is the group skipped.
------------------------------------------------------------------ -/

/-- Match `href="([^"]*)"` (icase on `href`) at the head of `l`,
returning the capture and the remainder after the closing quote. -/
def tryHrefQ (l : List Char) : Option (List Char × List Char) :=
  match stripCI (String.toList "href=\"") l with
  | none => none
  | some r =>
    match r.dropWhile (fun c => c != '"') with
    | '"' :: after => some (r.takeWhile (fun c => c != '"'), after)
    | _ => none

/-- Try `\s+ href="…"` where `\s+` consumes `j` down to `1` characters of
the leading whitespace run of `l` (greedy `\s+`, giving back on failure). -/
def tryWsDescend (l : List Char) : Nat → Option (List Char × List Char)
  | 0 => none
  | j + 1 =>
    match tryHrefQ (l.drop (j + 1)) with
    | some r => some r
    | none => tryWsDescend l j

/-- The group `[^>]*?\s+` followed by `href="…"`: the lazy `[^>]*?` grows
one character at a time (never over `>`), trying `\s+ href="…"` at each
stop, shortest expansion first. -/
def groupSearch : List Char → Option (List Char × List Char)
  | [] => none
  | c :: rest =>
    match tryWsDescend (c :: rest) (wsCount (c :: rest)) with
    | some r => some r
    | none => if c == '>' then none else groupSearch rest

/-- Attempt the whole anchor regex at the head of `l`: `<a` (icase),
mandatory whitespace, the optional group, then `href="([^"]*)"`. -/
def anchorAt : List Char → Option (List Char × List Char)
  | '<' :: c :: rest =>
    if lowc c == 'a' then
      let m := wsCount rest
      if m == 0 then none
      else
        match groupSearch (rest.drop m) with
        | some r => some r
        | none => tryHrefQ (rest.drop m)
    else none
  | _ => none

/-- Scan left to right, emitting each match's capture and resuming after
the match end (non-overlapping, as `sregex_iterator` does). The fuel is
the input length; every match starts at `<` so positions only advance. -/
def scanAux : Nat → List Char → List (List Char)
  | 0, _ => []
  | _, [] => []
  | fuel + 1, c :: rest =>
    match anchorAt (c :: rest) with
    | some (cap, after) => cap :: scanAux fuel after
    | none => scanAux fuel rest

def extractLinksL (l : List Char) : List (List Char) := scanAux l.length l

/-- `extractLinks` (main.cpp:475-484). -/
def extractLinks (html : String) : List String :=
  (extractLinksL html.toList).map String.mk

example : extractLinks "<a href=\"x/\">X</a><a class=\"y\" href=\"z.txt\">Z</a>"
    = ["x/", "z.txt"] := by decide
example : extractLinks "<A HREF=\"u\">caps</A>" = ["u"] := by decide
example : extractLinks "<a id=\"1\" class=\"c\" href=\" u \">t</a>" = [" u "] := by decide
example : extractLinks "<a href=\"d/\">1</a><a href=\"d/\">2</a>" = ["d/", "d/"] := by decide
example : extractLinks "no anchors <b>here</b>" = [] := by decide
example : extractLinks "<ahref=\"x\">" = [] := by decide

/- ------------------------------------------------------------------
Heuristic classifier (main.cpp:551-587), as a pure function of the probe
body, the status-probe text, the cached not-found signature, and the
base URL.
------------------------------------------------------------------ -/

/-- The five heuristic signals of one candidate probe. -/
structure Signals where
  not404 : Bool
  statusOk : Bool
  looksLikeDir : Bool
  titleOk : Bool
  notRedirect : Bool
deriving DecidableEq, Repr

/-- `score` (main.cpp:582-587): one point per true signal, accumulated
by the five successive `if (…) score++;` statements. -/
def scoreOf (s : Signals) : Nat :=
  (if s.not404 then 1 else 0) + (if s.statusOk then 1 else 0) +
    (if s.looksLikeDir then 1 else 0) + (if s.titleOk then 1 else 0) +
    (if s.notRedirect then 1 else 0)

/-- The directory-listing phrases (main.cpp:565-567). -/
def dirPatterns : List String :=
  ["Index of", "Parent Directory", "<title>Index of", "Directory listing for",
   "To Parent Directory"]

/-- The literal the redirect check looks for (main.cpp:580). -/
def refreshLit : String := "http-equiv=\"refresh\""

/-- Lazy `(.*?)` body of the title regex: stop at the first `</title>`
(icase); `.` matches no line terminator, so a newline or carriage return
before the closing tag kills the attempt at this start position. -/
def titleContent : List Char → Option (List Char)
  | [] => none
  | c :: rest =>
    if (stripCI (String.toList "</title>") (c :: rest)).isSome then some []
    else if c == '\n' || c == '\r' then none
    else (titleContent rest).map (fun t => c :: t)

/-- `regex_search(probe, m, regex("<title>(.*?)</title>", icase))`:
leftmost start position whose lazy body closes, returning `m[1]`. -/
def findTitle : List Char → Option (List Char)
  | [] => none
  | c :: rest =>
    if (stripCI (String.toList "<title>") (c :: rest)).isSome then
      match titleContent ((c :: rest).drop 7) with
      | some t => some t
      | none => findTitle rest
    else findTitle rest

/-- `title` (main.cpp:574-577): the first title capture, or `""` when the
regex does not match. -/
def extractTitle (probe : String) : String :=
  match findTitle probe.toList with
  | some t => String.mk t
  | none => ""

/-- `classify` — the five signal computations (main.cpp:551-581). -/
def classify (probe code sig baseUrl : String) : Signals :=
  ⟨strTake probe 512 != sig,
   strContains code "200" || strContains code "301" || strContains code "302",
   dirPatterns.any (fun p => strContains probe p),
   (extractTitle probe != "" && !strContains (extractTitle probe) "404" &&
     !strContains (extractTitle probe) "Not Found"),
   !(strContains probe refreshLit && strContains probe baseUrl)⟩

example : extractTitle "<p><TITLE>My Dir</TITLE>" = "My Dir" := by decide
example : extractTitle "<title>a\nb</title>" = "" := by decide
example : extractTitle "<title>no close" = "" := by decide
example :
    classify "<html>Index of /admin</html>" "200" "404 page" "http://h"
      = ⟨true, true, true, false, true⟩ := by decide

/- ------------------------------------------------------------------
The recursive enumerator (main.cpp:501-613).
------------------------------------------------------------------ -/

/-- Observable actions of a run, in one sequential linearization of the
code's task tree: each network request and each printed report line. -/
inductive Ev
  | enumFetch (url : String)
  | baselineFetch (url : String)
  | probeFetch (url : String)
  | statusFetch (url : String)
  | outEnumerating (url : String)
  | outNoResponse
  | outOk (dir : String) (s : Signals)
  | outBracket (dir : String)
  | listFetch (url : String)
  | outListing (url : String)
  | outListFail
  | outNoLinks
  | outFile (name : String)
  | outNoEntries
deriving DecidableEq, Repr

/-- The process-wide mutable state: the static visited set and the static
not-found cache (an association list keyed by base URL), plus the
position in the `rand()` stream. -/
structure EnumState where
  visited : List String
  cache : List (String × String)
  randCtr : Nat
deriving DecidableEq, Repr

/-- `std::set` insertion, modelled on a duplicate-free list (iteration
order is the linearization order of the concurrent inserts). -/
def setInsert (s : List String) (x : String) : List String :=
  if x ∈ s then s else s ++ [x]

/-- The fixed probe dictionary `commonDirs` (main.cpp:503-506). -/
def commonDirs : List String :=
  ["admin/", "private/", "secret/", "hidden/", "config/", "backup/", "data/",
   "uploads/", "files/", "tmp/", "test/", "dev/", "logs/", "bin/", "cgi-bin/",
   ".git/", ".svn/", ".env/", ".htaccess", ".htpasswd", "db/", "db_backup/",
   "old/", "new/", "staging/", "beta/", "alpha/", "api/", "assets/",
   "images/", "css/", "js/"]

/-- The synthetic not-found URL
`combineUrl(baseUrl, "__tcli_fake404__" + to_string(rand()) + "/")`. -/
def fakeUrl (baseUrl : String) (r : Nat) : String :=
  combineUrl baseUrl ("__tcli_fake404__" ++ Nat.repr r ++ "/")

/-- The `notFoundCache` block (main.cpp:523-534): under the lock, a hit
reads the cached signature; a miss fetches the synthetic URL, keeps the
first 512 bytes (or fewer), and stores them under the exact base URL.
Returns (signature, state afterwards, fetches performed). -/
def baselineStep (world : String → String) (randf : Nat → Nat)
    (st : EnumState) (baseUrl : String) : String × EnumState × List Ev :=
  match List.lookup baseUrl st.cache with
  | some sig => (sig, st, [])
  | none =>
    let url := fakeUrl baseUrl (randf st.randCtr)
    let sig := strTake (world url) 512
    (sig, ⟨st.visited, (baseUrl, sig) :: st.cache, st.randCtr + 1⟩,
      [Ev.baselineFetch url])

/-- The visited-set guard (main.cpp:510-514): one atomic check-then-insert
under `visMutex`; `true` means this call newly marked the URL visited. -/
def visitAndCheck (visited : List String) (u : String) : Bool × List String :=
  if u ∈ visited then (false, visited) else (true, u :: visited)

/-- One candidate probe task (main.cpp:544-600): skip names already in the
found set, fetch the probe, return silently on an empty body, otherwise
run the status probe and the classifier and accept iff `score >= 2`. -/
def probeStep (world statusWorld : String → String) (baseUrl sig : String)
    (acc : List String × List Ev) (dir : String) : List String × List Ev :=
  if dir ∈ acc.1 then acc
  else
    let tryUrl := combineUrl baseUrl dir
    let probe := world tryUrl
    if probe = "" then (acc.1, acc.2 ++ [Ev.probeFetch tryUrl])
    else
      let s := classify probe (statusWorld tryUrl) sig baseUrl
      if 2 ≤ scoreOf s then
        (setInsert acc.1 dir,
         acc.2 ++ [Ev.probeFetch tryUrl, Ev.statusFetch tryUrl, Ev.outOk dir s])
      else (acc.1, acc.2 ++ [Ev.probeFetch tryUrl, Ev.statusFetch tryUrl])

/-- The directories named by the page's own links: every extracted link
ending in `/`, except `../`, `./` and the empty link (main.cpp:536-540). -/
def linkDirsOf (html : String) : List String :=
  (extractLinks html).foldl
    (fun acc l =>
      if l != "../" && l != "./" && l != "" && endsSlash l then setInsert acc l
      else acc) []

/-- One recursive branch of the enumerator (main.cpp:604-611): print the
`[dir]` marker, then run the continuation `f` on the resolved URL. -/
def recStep (f : String → EnumState → EnumState × List Ev) (baseUrl : String)
    (acc : EnumState × List Ev) (dir : String) : EnumState × List Ev :=
  let r := f (combineUrl baseUrl dir) acc.1
  (r.1, acc.2 ++ Ev.outBracket dir :: r.2)

/-- `enumerateDirectories` with the depth bound folded into a fuel
argument: fuel `maxDepth + 1 - depth` makes `depth > maxDepth` exactly
`fuel = 0`. Body order follows main.cpp:510-613: visited guard, report
line, fetch (empty body reports and stops), baseline lookup, link
harvest, the probe barrier over `commonDirs`, then one recursive branch
per found directory at one less fuel. -/
def enumGo (world statusWorld : String → String) (randf : Nat → Nat) :
    Nat → String → EnumState → EnumState × List Ev
  | 0, _, st => (st, [])
  | fuel + 1, baseUrl, st =>
    let v := visitAndCheck st.visited baseUrl
    if !v.1 then (st, [])
    else
      let st1 : EnumState := ⟨v.2, st.cache, st.randCtr⟩
      let html := world baseUrl
      if html = "" then
        (st1, [Ev.outEnumerating baseUrl, Ev.enumFetch baseUrl, Ev.outNoResponse])
      else
        let b := baselineStep world randf st1 baseUrl
        let pr := commonDirs.foldl (probeStep world statusWorld baseUrl b.1)
          (linkDirsOf html, [])
        let rec2 := pr.1.foldl
          (recStep (enumGo world statusWorld randf fuel) baseUrl) (b.2.1, [])
        (rec2.1,
         Ev.outEnumerating baseUrl :: Ev.enumFetch baseUrl :: b.2.2 ++ pr.2 ++ rec2.2)

/-- `enumerateDirectories(baseUrl, depth, maxDepth, visited)` for an
already-resolved `maxDepth` (the `-1` default is replaced from config
before anything else, main.cpp:502). -/
def enumerate (world statusWorld : String → String) (randf : Nat → Nat)
    (baseUrl : String) (depth maxDepth : Nat) (st : EnumState) :
    EnumState × List Ev :=
  if maxDepth < depth then (st, []) else
    enumGo world statusWorld randf (maxDepth + 1 - depth) baseUrl st

/- ------------------------------------------------------------------
The flat recursive lister `listGlobalRecursive` (main.cpp:615-660).
------------------------------------------------------------------ -/

/-- The lister body with the same fuel encoding of the depth bound. It
keeps no visited set, touches no cache, and probes nothing: fetch,
extract, partition on a trailing `/`, print files, then one recursive
branch per directory (main.cpp:615-660). -/
def listGo (world : String → String) : Nat → String → List Ev
  | 0, _ => []
  | fuel + 1, url =>
    Ev.outListing url :: Ev.listFetch url ::
      (if world url = "" then [Ev.outListFail]
       else
         let links := extractLinks (world url)
         if links.isEmpty then [Ev.outNoLinks]
         else
           let dirs := links.filter
             (fun l => l != "../" && l != "./" && l != "" && endsSlash l)
           let files := links.filter
             (fun l => l != "../" && l != "./" && l != "" && !endsSlash l)
           if files.isEmpty && dirs.isEmpty then [Ev.outNoEntries]
           else
             files.map Ev.outFile ++
               (dirs.map
                 (fun d => Ev.outBracket d :: listGo world fuel (combineUrl url d))).flatten)

/-- `listGlobalRecursive(url, depth, maxDepth)` for a resolved `maxDepth`. -/
def listGlobalRecursive (world : String → String) (url : String)
    (depth maxDepth : Nat) : List Ev :=
  if maxDepth < depth then [] else listGo world (maxDepth + 1 - depth) url

/- ------------------------------------------------------------------
General lemmas about the string primitives.
------------------------------------------------------------------ -/

theorem isPrefixL_iff (p : List Char) : ∀ l : List Char,
    isPrefixL p l = true ↔ ∃ r, l = p ++ r := by
  induction p with
  | nil => intro l; simp [isPrefixL]
  | cons a as ih =>
    intro l
    cases l with
    | nil => simp [isPrefixL]
    | cons c cs =>
      simp only [isPrefixL, Bool.and_eq_true, beq_iff_eq, ih, List.cons_append,
        List.cons.injEq]
      constructor
      · rintro ⟨hc, r, hr⟩; exact ⟨r, hc, hr⟩
      · rintro ⟨r, hc, hr⟩; exact ⟨hc, r, hr⟩

theorem containsL_iff (pat : List Char) : ∀ hay : List Char,
    containsL hay pat = true ↔ ∃ x y, hay = x ++ pat ++ y := by
  intro hay
  induction hay with
  | nil =>
    simp only [containsL, Bool.or_false, isPrefixL_iff]
    constructor
    · rintro ⟨r, hr⟩
      exact ⟨[], r, hr⟩
    · rintro ⟨x, y, hxy⟩
      rcases List.append_eq_nil.mp hxy.symm with ⟨hx, hy⟩
      rcases List.append_eq_nil.mp hx with ⟨hx1, hp⟩
      exact ⟨[], by simp [hp]⟩
  | cons c cs ih =>
    rw [show containsL (c :: cs) pat = (isPrefixL pat (c :: cs) || containsL cs pat)
      from rfl]
    simp only [Bool.or_eq_true, isPrefixL_iff, ih]
    constructor
    · rintro (⟨r, hr⟩ | ⟨x, y, hxy⟩)
      · exact ⟨[], r, by simpa using hr⟩
      · exact ⟨c :: x, y, by simp [hxy]⟩
    · rintro ⟨x, y, hxy⟩
      cases x with
      | nil => exact Or.inl ⟨y, by simpa using hxy⟩
      | cons a as =>
        right
        rcases List.cons.injEq .. ▸ hxy with ⟨_, h2⟩
        exact ⟨as, y, by simpa using h2⟩

theorem strContains_iff (s pat : String) :
    strContains s pat = true ↔ ∃ x y, s.toList = x ++ pat.toList ++ y :=
  containsL_iff pat.toList s.toList

/-- `score` really is the number of true signals. -/
theorem scoreOf_eq_count : ∀ s : Signals,
    scoreOf s = ([s.not404, s.statusOk, s.looksLikeDir, s.titleOk,
      s.notRedirect].count true) := by
  rintro ⟨a, b, c, d, e⟩
  revert a b c d e
  decide

/- ------------------------------------------------------------------
C3 — the URL resolver's case analysis.
------------------------------------------------------------------ -/

/-- C3: `resolve(base, relative)` follows the specified case analysis —
empty `relative` returns `base`; an absolute `relative` (leading
`http://` or `https://`) is returned unchanged; after stripping a
trailing `/` from `base`, a root-relative `relative` is appended to the
`^https?://[^/]+` prefix of `base` when that pattern matches and to the
stripped `base` itself otherwise; any other `relative` yields
`base + "/" + relative`; and `resolve("http://h.com/a", "/b") =
"http://h.com/b"`. -/
theorem C3_resolver_cases :
    (∀ base : String, combineUrl base "" = base) ∧
    (∀ base rel : String,
      (startsWithS rel "http://" || startsWithS rel "https://") = true →
      combineUrl base rel = rel) ∧
    (∀ base rel : String, rel ≠ "" →
      (startsWithS rel "http://" || startsWithS rel "https://") = false →
      headIsSlash rel = true →
      combineUrl base rel =
        (match schemeHost (stripTrailingSlash base) with
         | some p => p ++ rel
         | none => stripTrailingSlash base ++ rel)) ∧
    (∀ base rel : String, rel ≠ "" →
      (startsWithS rel "http://" || startsWithS rel "https://") = false →
      headIsSlash rel = false →
      combineUrl base rel = stripTrailingSlash base ++ "/" ++ rel) ∧
    combineUrl "http://h.com/a" "/b" = "http://h.com/b" := by
  refine ⟨fun base => by simp [combineUrl], ?_, ?_, ?_, by decide⟩
  · intro base rel h
    have hne : rel ≠ "" := by
      intro e
      rw [e] at h
      simp [startsWithS, isPrefixL] at h
    simp [combineUrl, hne, h]
  · intro base rel hne h hs
    simp [combineUrl, hne, h, hs]
  · intro base rel hne h hs
    simp [combineUrl, hne, h, hs]

/-- Witness for C3 at concrete inputs, one per case. -/
theorem C3_resolver_cases_witness :
    combineUrl "http://h.com" "" = "http://h.com" ∧
    combineUrl "http://h.com/a" "https://x/y" = "https://x/y" ∧
    combineUrl "http://h.com/a" "/b" =
      (match schemeHost (stripTrailingSlash "http://h.com/a") with
       | some p => p ++ "/b"
       | none => stripTrailingSlash "http://h.com/a" ++ "/b") ∧
    combineUrl "http://h.com/a/" "c" =
      stripTrailingSlash "http://h.com/a/" ++ "/" ++ "c" :=
  ⟨C3_resolver_cases.1 "http://h.com",
   C3_resolver_cases.2.1 "http://h.com/a" "https://x/y" (by decide),
   C3_resolver_cases.2.2.1 "http://h.com/a" "/b" (by decide) (by decide) (by decide),
   C3_resolver_cases.2.2.2.1 "http://h.com/a/" "c" (by decide) (by decide) (by decide)⟩

/- ------------------------------------------------------------------
C1 — the notRedirect signal.
------------------------------------------------------------------ -/

/-- Search for the first occurrence of `pat` and return the suffix just
after it. -/
def afterSub (pat : List Char) : List Char → Option (List Char)
  | [] => match stripL pat [] with
          | some r => some r
          | none => none
  | c :: t => match stripL pat (c :: t) with
              | some r => some r
              | none => afterSub pat t

/-- The redirect target as the spec reads it (a second definition kept
deliberately on the spec's words, to compare with the code's check): the
URL written after `url=` inside the `content` attribute of the first
`meta http-equiv="refresh"` tag, i.e. the quote-delimited span following
the first `url=` after the `http-equiv="refresh"` literal. -/
def refreshTargetSpec (probe : String) : Option String :=
  match afterSub refreshLit.toList probe.toList with
  | none => none
  | some r =>
    match afterSub (String.toList "url=") r with
    | none => none
    | some r2 => some (String.mk (r2.takeWhile (fun c => c != '"')))

def c1Base : String := "http://h"

def c1Probe : String :=
  "<meta http-equiv=\"refresh\" content=\"0;url=/next\"> back to http://h"

/-- C1 counterexample: a probe body whose refresh tag's target (`/next`)
does not contain the base URL, while the base URL does occur elsewhere in
the body. The claim says `notRedirect` must be true here; the code
(main.cpp:579-581) only tests the two substrings independently and sets
it false. -/
theorem C1_counterexample :
    strContains c1Probe refreshLit = true ∧
    (refreshTargetSpec c1Probe).map (fun t => strContains t c1Base) = some false ∧
    (classify c1Probe "" "" c1Base).notRedirect = false := by
  decide

/-- C1 (amended): `notRedirect` is false exactly when the probe body
contains the literal `http-equiv="refresh"` and, independently, contains
`baseUrl` anywhere in the body — the refresh target is never isolated. -/
theorem C1_notRedirect_amended (probe code sig baseUrl : String) :
    (classify probe code sig baseUrl).notRedirect = false ↔
      ((∃ x y, probe.toList = x ++ refreshLit.toList ++ y) ∧
       (∃ u v, probe.toList = u ++ baseUrl.toList ++ v)) := by
  have h : (classify probe code sig baseUrl).notRedirect
      = !(strContains probe refreshLit && strContains probe baseUrl) := rfl
  rw [h, show ∀ b : Bool, ((!b) = false ↔ b = true) from by decide,
    Bool.and_eq_true, strContains_iff, strContains_iff]

/- ------------------------------------------------------------------
C2 — score, acceptance threshold, and the baseline-identical case.
------------------------------------------------------------------ -/

/-- C2: for a candidate with a non-empty probe body, the score is the
count of true signals and the candidate enters the found set iff
`score >= 2`; a probe body whose first 512 bytes equal the cached
baseline signature never sets `not404`, and with the four other signals
also false the candidate is not accepted. -/
theorem C2_classifier_score (world statusWorld : String → String)
    (baseUrl sig dir probe code : String) (found : List String) (evs : List Ev)
    (hp : world (combineUrl baseUrl dir) = probe)
    (hc : statusWorld (combineUrl baseUrl dir) = code)
    (hnf : dir ∉ found) (hne : probe ≠ "") :
    scoreOf (classify probe code sig baseUrl) =
      ([(classify probe code sig baseUrl).not404,
        (classify probe code sig baseUrl).statusOk,
        (classify probe code sig baseUrl).looksLikeDir,
        (classify probe code sig baseUrl).titleOk,
        (classify probe code sig baseUrl).notRedirect].count true) ∧
    (dir ∈ (probeStep world statusWorld baseUrl sig (found, evs) dir).1 ↔
      2 ≤ scoreOf (classify probe code sig baseUrl)) ∧
    (strTake probe 512 = sig → (classify probe code sig baseUrl).not404 = false) ∧
    (strTake probe 512 = sig →
      (classify probe code sig baseUrl).statusOk = false →
      (classify probe code sig baseUrl).looksLikeDir = false →
      (classify probe code sig baseUrl).titleOk = false →
      (classify probe code sig baseUrl).notRedirect = false →
      dir ∉ (probeStep world statusWorld baseUrl sig (found, evs) dir).1) := by
  have h404 : strTake probe 512 = sig →
      (classify probe code sig baseUrl).not404 = false := by
    intro h
    simp [classify, h]
  have hmem : dir ∈ (probeStep world statusWorld baseUrl sig (found, evs) dir).1 ↔
      2 ≤ scoreOf (classify probe code sig baseUrl) := by
    by_cases hs : 2 ≤ scoreOf (classify probe code sig baseUrl)
    · simp [probeStep, hnf, hp, hc, hne, hs, setInsert]
    · simp [probeStep, hnf, hp, hc, hne, hs]
  refine ⟨scoreOf_eq_count _, hmem, h404, ?_⟩
  intro h1 h2 h3 h4 h5 hin
  have hscore : scoreOf (classify probe code sig baseUrl) = 0 := by
    simp [scoreOf, h404 h1, h2, h3, h4, h5]
  have := hmem.mp hin
  omega

def c2World : String → String := fun _ => "http-equiv=\"refresh\" http://h"

def c2Status : String → String := fun _ => ""

/-- Witness for C2: a probe identical to the baseline signature with all
other signals false is scored 0 and rejected. -/
theorem C2_classifier_score_witness :
    scoreOf (classify "http-equiv=\"refresh\" http://h" "" "http-equiv=\"refresh\" http://h" "http://h") =
      ([(classify "http-equiv=\"refresh\" http://h" "" "http-equiv=\"refresh\" http://h" "http://h").not404,
        (classify "http-equiv=\"refresh\" http://h" "" "http-equiv=\"refresh\" http://h" "http://h").statusOk,
        (classify "http-equiv=\"refresh\" http://h" "" "http-equiv=\"refresh\" http://h" "http://h").looksLikeDir,
        (classify "http-equiv=\"refresh\" http://h" "" "http-equiv=\"refresh\" http://h" "http://h").titleOk,
        (classify "http-equiv=\"refresh\" http://h" "" "http-equiv=\"refresh\" http://h" "http://h").notRedirect].count true) ∧
    ("admin/" ∈ (probeStep c2World c2Status "http://h" "http-equiv=\"refresh\" http://h" ([], []) "admin/").1 ↔
      2 ≤ scoreOf (classify "http-equiv=\"refresh\" http://h" "" "http-equiv=\"refresh\" http://h" "http://h")) ∧
    (strTake "http-equiv=\"refresh\" http://h" 512 = "http-equiv=\"refresh\" http://h" →
      (classify "http-equiv=\"refresh\" http://h" "" "http-equiv=\"refresh\" http://h" "http://h").not404 = false) ∧
    (strTake "http-equiv=\"refresh\" http://h" 512 = "http-equiv=\"refresh\" http://h" →
      (classify "http-equiv=\"refresh\" http://h" "" "http-equiv=\"refresh\" http://h" "http://h").statusOk = false →
      (classify "http-equiv=\"refresh\" http://h" "" "http-equiv=\"refresh\" http://h" "http://h").looksLikeDir = false →
      (classify "http-equiv=\"refresh\" http://h" "" "http-equiv=\"refresh\" http://h" "http://h").titleOk = false →
      (classify "http-equiv=\"refresh\" http://h" "" "http-equiv=\"refresh\" http://h" "http://h").notRedirect = false →
      "admin/" ∉ (probeStep c2World c2Status "http://h" "http-equiv=\"refresh\" http://h" ([], []) "admin/").1) :=
  C2_classifier_score c2World c2Status "http://h" "http-equiv=\"refresh\" http://h"
    "admin/" "http-equiv=\"refresh\" http://h" "" [] [] rfl rfl
    (by decide) (by decide)

/- ------------------------------------------------------------------
C7 — an empty probe body skips classification entirely.
------------------------------------------------------------------ -/

/-- C7: when the probe fetch returns an empty body, the candidate task
returns right after the fetch — no status probe, no classification, no
output line, and the found set is untouched, so the candidate is simply
absent. -/
theorem C7_empty_probe_skipped (world statusWorld : String → String)
    (baseUrl sig dir : String) (found : List String) (evs : List Ev)
    (hnf : dir ∉ found) (hempty : world (combineUrl baseUrl dir) = "") :
    probeStep world statusWorld baseUrl sig (found, evs) dir
      = (found, evs ++ [Ev.probeFetch (combineUrl baseUrl dir)]) ∧
    dir ∉ (probeStep world statusWorld baseUrl sig (found, evs) dir).1 := by
  have h : probeStep world statusWorld baseUrl sig (found, evs) dir
      = (found, evs ++ [Ev.probeFetch (combineUrl baseUrl dir)]) := by
    simp [probeStep, hnf, hempty]
  exact ⟨h, by rw [h]; exact hnf⟩

def c7World : String → String := fun _ => ""

/-- Witness for C7 at a concrete unreachable candidate. -/
theorem C7_empty_probe_skipped_witness :
    probeStep c7World c7World "http://h" "sig" ([], []) "admin/"
      = ([], [Ev.probeFetch (combineUrl "http://h" "admin/")]) ∧
    "admin/" ∉ (probeStep c7World c7World "http://h" "sig" ([], []) "admin/").1 :=
  C7_empty_probe_skipped c7World c7World "http://h" "sig" "admin/" [] []
    (by decide) rfl

/- ------------------------------------------------------------------
C8 — the link extractor.
------------------------------------------------------------------ -/

theorem scanAux_eq_nil_iff : ∀ (fuel : Nat) (l : List Char), l.length ≤ fuel →
    (scanAux fuel l = [] ↔ ∀ i : Nat, anchorAt (l.drop i) = none) := by
  intro fuel
  induction fuel with
  | zero =>
    intro l hl
    have : l = [] := List.eq_nil_of_length_eq_zero (Nat.le_zero.mp hl)
    subst this
    simp [scanAux]
    rfl
  | succ n ih =>
    intro l hl
    cases l with
    | nil =>
      simp [scanAux]
      rfl
    | cons c rest =>
      cases h : anchorAt (c :: rest) with
      | some pr =>
        rw [show scanAux (n + 1) (c :: rest)
            = pr.1 :: scanAux n pr.2 from by rw [scanAux, h]]
        simp only [List.cons_ne_nil, false_iff]
        intro hall
        have := hall 0
        rw [List.drop_zero, h] at this
        exact Option.noConfusion this
      | none =>
        rw [show scanAux (n + 1) (c :: rest) = scanAux n rest from by rw [scanAux, h]]
        rw [ih rest (Nat.le_of_succ_le_succ hl)]
        constructor
        · intro hr i
          cases i with
          | zero => simpa using h
          | succ j => simpa using hr j
        · intro hall j
          simpa using hall (j + 1)

/-- C8: the extractor returns the captured href value of each anchor
match, case-insensitively and verbatim, in document order with
duplicates; it returns `[]` exactly when the anchor pattern matches at
no position of the input. -/
theorem C8_extractLinks :
    extractLinks "<a href=\"x/\">X</a><a class=\"y\" href=\"z.txt\">Z</a>"
      = ["x/", "z.txt"] ∧
    extractLinks "<A HREF=\"u\">caps</A>" = ["u"] ∧
    extractLinks "<a id=\"1\" class=\"c\" href=\" u \">t</a>" = [" u "] ∧
    extractLinks "<a href=\"d/\">1</a><a href=\"d/\">2</a>" = ["d/", "d/"] ∧
    extractLinks "plain text, no anchors here" = [] ∧
    (∀ html : String, extractLinks html = [] ↔
      ∀ i : Nat, anchorAt (html.toList.drop i) = none) := by
  refine ⟨by decide, by decide, by decide, by decide, by decide, ?_⟩
  intro html
  rw [show extractLinks html = (extractLinksL html.toList).map String.mk from rfl,
    List.map_eq_nil_iff,
    show extractLinksL html.toList = scanAux html.toList.length html.toList from rfl,
    scanAux_eq_nil_iff html.toList.length html.toList (Nat.le_refl _)]

/- ------------------------------------------------------------------
C5 — the visited set: one winner, no removal, losers do not proceed.
------------------------------------------------------------------ -/

/-- The results of a sequence of `visitAndCheck` calls, restricted to the
calls made on `u`, threading the visited set through every call. -/
def visitResultsFor (u : String) : List String → List String → List Bool
  | [], _ => []
  | x :: xs, v =>
    let r := visitAndCheck v x
    if x = u then r.1 :: visitResultsFor u xs r.2
    else visitResultsFor u xs r.2

theorem visitResultsFor_of_mem (u : String) : ∀ (us : List String)
    (v : List String), u ∈ v →
    visitResultsFor u us v = List.replicate (us.count u) false := by
  intro us
  induction us with
  | nil => intro v _; simp [visitResultsFor]
  | cons x xs ih =>
    intro v hv
    by_cases hx : x = u
    · subst hx
      rw [show visitResultsFor x (x :: xs) v
          = (visitAndCheck v x).1 :: visitResultsFor x xs (visitAndCheck v x).2
          from by simp [visitResultsFor]]
      rw [show visitAndCheck v x = (false, v) from by simp [visitAndCheck, hv]]
      simp [ih v hv, List.count_cons, List.replicate_succ]
    · rw [show visitResultsFor u (x :: xs) v
          = visitResultsFor u xs (visitAndCheck v x).2
          from by simp [visitResultsFor, hx]]
      have hmem : u ∈ (visitAndCheck v x).2 := by
        unfold visitAndCheck
        split <;> simp [hv]
      have hux : (x == u) = false := beq_eq_false_iff_ne.mpr hx
      rw [ih _ hmem, List.count_cons, hux]
      simp

theorem visitResultsFor_not_mem (u : String) : ∀ (us : List String)
    (v : List String), u ∉ v → u ∈ us →
    visitResultsFor u us v = true :: List.replicate (us.count u - 1) false := by
  intro us
  induction us with
  | nil => intro v _ h; exact absurd h (List.not_mem_nil u)
  | cons x xs ih =>
    intro v hv hmem
    by_cases hx : x = u
    · subst hx
      rw [show visitResultsFor x (x :: xs) v
          = (visitAndCheck v x).1 :: visitResultsFor x xs (visitAndCheck v x).2
          from by simp [visitResultsFor]]
      rw [show visitAndCheck v x = (true, x :: v) from by simp [visitAndCheck, hv]]
      rw [visitResultsFor_of_mem x xs (x :: v) (List.mem_cons_self x v)]
      simp [List.count_cons]
    · rw [show visitResultsFor u (x :: xs) v
          = visitResultsFor u xs (visitAndCheck v x).2
          from by simp [visitResultsFor, hx]]
      have hus : u ∈ xs := by
        rcases List.mem_cons.mp hmem with h | h
        · exact absurd h.symm hx
        · exact h
      have hnv : u ∉ (visitAndCheck v x).2 := by
        unfold visitAndCheck
        split
        · exact hv
        · intro hc
          rcases List.mem_cons.mp hc with h | h
          · exact hx h.symm
          · exact hv h
      have hux : (x == u) = false := beq_eq_false_iff_ne.mpr hx
      rw [ih _ hnv hus, List.count_cons, hux]
      simp

/-- Once a URL is in the visited set, `enumGo` returns at once with no
output and no state change, at any remaining budget. -/
theorem enumGo_stop (world statusWorld : String → String) (randf : Nat → Nat)
    (u : String) : ∀ (fuel : Nat) (st : EnumState), u ∈ st.visited →
    enumGo world statusWorld randf fuel u st = (st, []) := by
  intro fuel st hv
  cases fuel with
  | zero => rfl
  | succ n => simp [enumGo, visitAndCheck, hv]

/-- A visited URL makes `enumerate` a no-op at every depth. -/
theorem enumerate_stop (world statusWorld : String → String) (randf : Nat → Nat)
    (u : String) (depth maxDepth : Nat) (st : EnumState) (hv : u ∈ st.visited) :
    enumerate world statusWorld randf u depth maxDepth st = (st, []) := by
  unfold enumerate
  split
  · rfl
  · exact enumGo_stop world statusWorld randf u _ st hv

/-- C5: threading the visited set through any sequence of calls, the
first `visitAndCheck(u)` on an unvisited `u` returns true and every later
one returns false; no call ever removes a URL from the set; and the
enumerator does not process a URL whose `visitAndCheck` lost. -/
theorem C5_visited_set (u : String) :
    (∀ (us v : List String), u ∉ v → u ∈ us →
      visitResultsFor u us v = true :: List.replicate (us.count u - 1) false) ∧
    (∀ (v : List String) (x : String), v ⊆ (visitAndCheck v x).2) ∧
    (∀ (v : List String) (x : String), x ∈ (visitAndCheck v x).2) ∧
    (∀ (world statusWorld : String → String) (randf : Nat → Nat)
      (depth maxDepth : Nat) (st : EnumState), u ∈ st.visited →
      enumerate world statusWorld randf u depth maxDepth st = (st, [])) := by
  refine ⟨visitResultsFor_not_mem u, ?_, ?_, ?_⟩
  · intro v x
    unfold visitAndCheck
    split
    · exact List.Subset.refl v
    · exact List.subset_cons_self x v
  · intro v x
    unfold visitAndCheck
    split
    · assumption
    · exact List.mem_cons_self x v
  · intro world statusWorld randf depth maxDepth st hv
    exact enumerate_stop world statusWorld randf u depth maxDepth st hv

/-- Witness for C5: three calls on the same URL — true, then false,
false; and the enumerator is a no-op on a visited URL. -/
theorem C5_visited_set_witness :
    visitResultsFor "http://h" ["http://h", "http://h", "http://h"] []
      = [true, false, false] ∧
    ["u"] ⊆ (visitAndCheck ["u"] "http://h").2 ∧
    "http://h" ∈ (visitAndCheck ["u"] "http://h").2 ∧
    enumerate c7World c7World (fun _ => 0) "http://h" 0 3
      ⟨["http://h"], [], 0⟩ = (⟨["http://h"], [], 0⟩, []) :=
  ⟨(C5_visited_set "http://h").1 ["http://h", "http://h", "http://h"] []
      (by decide) (by decide),
   (C5_visited_set "http://h").2.1 ["u"] "http://h",
   (C5_visited_set "http://h").2.2.1 ["u"] "http://h",
   (C5_visited_set "http://h").2.2.2 c7World c7World (fun _ => 0) 0 3
      ⟨["http://h"], [], 0⟩ (by decide)⟩

/- ------------------------------------------------------------------
C4 — the baseline signature cache.
------------------------------------------------------------------ -/

/-- Thread a sequence of baseline lookups through the state and record,
for the lookups made on `u`, whether each one issued a probe fetch. -/
def fetchFlagsFor (world : String → String) (randf : Nat → Nat) (u : String) :
    List String → EnumState → List Bool
  | [], _ => []
  | x :: xs, st =>
    let r := baselineStep world randf st x
    if x = u then (!r.2.2.isEmpty) :: fetchFlagsFor world randf u xs r.2.1
    else fetchFlagsFor world randf u xs r.2.1

/-- A cached signature survives any later lookup unchanged. -/
theorem baselineStep_preserves (world : String → String) (randf : Nat → Nat)
    (st : EnumState) (u x s : String) (h : List.lookup u st.cache = some s) :
    List.lookup u (baselineStep world randf st x).2.1.cache = some s := by
  unfold baselineStep
  cases hx : List.lookup x st.cache with
  | some sig => simpa using h
  | none =>
    have hne : (u == x) = false := by
      rcases Bool.eq_false_or_eq_true (u == x) with hb | hb
      · rw [beq_iff_eq.mp hb] at h
        rw [h] at hx
        exact Option.noConfusion hx
      · exact hb
    simp [List.lookup, hne, h]

/-- After `u` is cached, no later lookup on `u` fetches. -/
theorem fetchFlagsFor_cached (world : String → String) (randf : Nat → Nat)
    (u : String) : ∀ (us : List String) (st : EnumState) (s : String),
    List.lookup u st.cache = some s →
    (fetchFlagsFor world randf u us st).count true = 0 := by
  intro us
  induction us with
  | nil => intro st s _; simp [fetchFlagsFor]
  | cons x xs ih =>
    intro st s h
    by_cases hx : x = u
    · subst hx
      rw [show fetchFlagsFor world randf x (x :: xs) st
          = (!(baselineStep world randf st x).2.2.isEmpty) ::
            fetchFlagsFor world randf x xs (baselineStep world randf st x).2.1
          from by simp [fetchFlagsFor]]
      rw [show baselineStep world randf st x = (s, st, []) from by
        unfold baselineStep
        rw [h]]
      simp [ih st s h]
    · rw [show fetchFlagsFor world randf u (x :: xs) st
          = fetchFlagsFor world randf u xs (baselineStep world randf st x).2.1
          from by simp [fetchFlagsFor, hx]]
      exact ih _ s (baselineStep_preserves world randf st u x s h)

/-- C4: a cache miss issues exactly one probe fetch and stores the first
512 bytes of its body under the exact base URL; a hit returns the stored
value with no fetch and no state change; stored entries persist; an
empty fetched body is cached as the empty signature; and across any
sequence of lookups, at most one fetch is ever issued for a given base
URL. -/
theorem C4_baseline_cache (world : String → String) (randf : Nat → Nat) :
    (∀ (st : EnumState) (baseUrl : String),
      List.lookup baseUrl st.cache = none →
      baselineStep world randf st baseUrl =
        (strTake (world (fakeUrl baseUrl (randf st.randCtr))) 512,
         ⟨st.visited,
          (baseUrl, strTake (world (fakeUrl baseUrl (randf st.randCtr))) 512)
            :: st.cache,
          st.randCtr + 1⟩,
         [Ev.baselineFetch (fakeUrl baseUrl (randf st.randCtr))])) ∧
    (∀ (st : EnumState) (baseUrl sig : String),
      List.lookup baseUrl st.cache = some sig →
      baselineStep world randf st baseUrl = (sig, st, [])) ∧
    (∀ (st : EnumState) (baseUrl x s : String),
      List.lookup baseUrl st.cache = some s →
      List.lookup baseUrl (baselineStep world randf st x).2.1.cache = some s) ∧
    (∀ (st : EnumState) (baseUrl : String),
      List.lookup baseUrl st.cache = none →
      world (fakeUrl baseUrl (randf st.randCtr)) = "" →
      List.lookup baseUrl (baselineStep world randf st baseUrl).2.1.cache
        = some "") ∧
    (∀ (u : String) (us : List String) (st : EnumState),
      (fetchFlagsFor world randf u us st).count true ≤ 1) := by
  have hmiss : ∀ (st : EnumState) (baseUrl : String),
      List.lookup baseUrl st.cache = none →
      baselineStep world randf st baseUrl =
        (strTake (world (fakeUrl baseUrl (randf st.randCtr))) 512,
         ⟨st.visited,
          (baseUrl, strTake (world (fakeUrl baseUrl (randf st.randCtr))) 512)
            :: st.cache,
          st.randCtr + 1⟩,
         [Ev.baselineFetch (fakeUrl baseUrl (randf st.randCtr))]) := by
    intro st baseUrl h
    unfold baselineStep
    rw [h]
  have hhit : ∀ (st : EnumState) (baseUrl sig : String),
      List.lookup baseUrl st.cache = some sig →
      baselineStep world randf st baseUrl = (sig, st, []) := by
    intro st baseUrl sig h
    unfold baselineStep
    rw [h]
  refine ⟨hmiss, hhit, baselineStep_preserves world randf, ?_, ?_⟩
  · intro st baseUrl h hw
    rw [hmiss st baseUrl h]
    simp [hw, strTake, List.lookup]
  · intro u us
    induction us with
    | nil => intro st; simp [fetchFlagsFor]
    | cons x xs ih =>
      intro st
      by_cases hx : x = u
      · subst hx
        rw [show fetchFlagsFor world randf x (x :: xs) st
            = (!(baselineStep world randf st x).2.2.isEmpty) ::
              fetchFlagsFor world randf x xs (baselineStep world randf st x).2.1
            from by simp [fetchFlagsFor]]
        cases h : List.lookup x st.cache with
        | some sig =>
          rw [hhit st x sig h]
          simpa using ih st
        | none =>
          rw [hmiss st x h]
          have hcached : List.lookup x
              ((x, strTake (world (fakeUrl x (randf st.randCtr))) 512)
                :: st.cache)
              = some (strTake (world (fakeUrl x (randf st.randCtr))) 512) := by
            simp [List.lookup]
          have hrest := fetchFlagsFor_cached world randf x xs
            ⟨st.visited,
             (x, strTake (world (fakeUrl x (randf st.randCtr))) 512) :: st.cache,
             st.randCtr + 1⟩
            (strTake (world (fakeUrl x (randf st.randCtr))) 512) hcached
          simp [hrest, List.count_cons]
      · rw [show fetchFlagsFor world randf u (x :: xs) st
            = fetchFlagsFor world randf u xs (baselineStep world randf st x).2.1
            from by simp [fetchFlagsFor, hx]]
        exact ih _

/-- Witness for C4 at a concrete state: a first lookup fetches and
stores, a second returns the stored value silently, the empty body is
cached as the empty signature, and a three-lookup run fetches once. -/
theorem C4_baseline_cache_witness :
    (baselineStep c7World (fun n => n) ⟨[], [], 0⟩ "http://h" =
      (strTake (c7World (fakeUrl "http://h" 0)) 512,
       ⟨[], [("http://h", strTake (c7World (fakeUrl "http://h" 0)) 512)], 1⟩,
       [Ev.baselineFetch (fakeUrl "http://h" 0)])) ∧
    (baselineStep c7World (fun n => n) ⟨[], [("http://h", "sig")], 3⟩ "http://h"
      = ("sig", ⟨[], [("http://h", "sig")], 3⟩, [])) ∧
    (List.lookup "http://h"
      (baselineStep c7World (fun n => n) ⟨[], [("http://h", "sig")], 3⟩
        "x").2.1.cache = some "sig") ∧
    (List.lookup "http://h"
      (baselineStep c7World (fun n => n) ⟨[], [], 0⟩ "http://h").2.1.cache
      = some "") ∧
    ((fetchFlagsFor c7World (fun n => n) "http://h"
      ["http://h", "http://h", "http://h"] ⟨[], [], 0⟩).count true ≤ 1) :=
  ⟨by
    have h := (C4_baseline_cache c7World (fun n => n)).1 ⟨[], [], 0⟩ "http://h" rfl
    simpa using h,
   (C4_baseline_cache c7World (fun n => n)).2.1 ⟨[], [("http://h", "sig")], 3⟩
     "http://h" "sig" (by simp [List.lookup]),
   (C4_baseline_cache c7World (fun n => n)).2.2.1 ⟨[], [("http://h", "sig")], 3⟩
     "http://h" "x" "sig" (by simp [List.lookup]),
   (C4_baseline_cache c7World (fun n => n)).2.2.2.1 ⟨[], [], 0⟩ "http://h" rfl rfl,
   (C4_baseline_cache c7World (fun n => n)).2.2.2.2 "http://h"
     ["http://h", "http://h", "http://h"] ⟨[], [], 0⟩⟩

/- ------------------------------------------------------------------
C10 — a failed fetch still marks the URL visited, permanently.
------------------------------------------------------------------ -/

/-- C10: the enumerator inserts the URL into the visited set before
fetching, so an empty fetch leaves it marked: the call reports the URL
and the no-response marker only, and every later enumeration of the same
URL string against the resulting state — at any depth and any depth
bound — returns immediately with no output and no state change; the
failed URL is never retried. -/
theorem C10_failed_fetch_never_retried (world statusWorld : String → String)
    (randf : Nat → Nat) (u : String) (M : Nat) (st : EnumState)
    (hv : u ∉ st.visited) (hw : world u = "") :
    enumerate world statusWorld randf u 0 M st
      = (⟨u :: st.visited, st.cache, st.randCtr⟩,
         [Ev.outEnumerating u, Ev.enumFetch u, Ev.outNoResponse]) ∧
    u ∈ (enumerate world statusWorld randf u 0 M st).1.visited ∧
    (∀ d M' : Nat,
      enumerate world statusWorld randf u d M'
          (enumerate world statusWorld randf u 0 M st).1
        = ((enumerate world statusWorld randf u 0 M st).1, [])) := by
  have hvc : visitAndCheck st.visited u = (true, u :: st.visited) := by
    simp [visitAndCheck, hv]
  have key : enumerate world statusWorld randf u 0 M st
      = (⟨u :: st.visited, st.cache, st.randCtr⟩,
         [Ev.outEnumerating u, Ev.enumFetch u, Ev.outNoResponse]) := by
    unfold enumerate
    rw [if_neg (by omega)]
    obtain ⟨k, hk⟩ : ∃ k, M + 1 - 0 = k + 1 := ⟨M, by omega⟩
    rw [hk]
    simp [enumGo, hvc, hw]
  refine ⟨key, by rw [key]; exact List.mem_cons_self u st.visited, ?_⟩
  intro d M'
  rw [key]
  exact enumerate_stop world statusWorld randf u d M'
    ⟨u :: st.visited, st.cache, st.randCtr⟩ (List.mem_cons_self u st.visited)

/-- Witness for C10 against an unreachable concrete URL. -/
theorem C10_failed_fetch_never_retried_witness :
    enumerate c7World c7World (fun n => n) "http://dead" 0 3 ⟨[], [], 0⟩
      = (⟨["http://dead"], [], 0⟩,
         [Ev.outEnumerating "http://dead", Ev.enumFetch "http://dead",
          Ev.outNoResponse]) ∧
    "http://dead" ∈
      (enumerate c7World c7World (fun n => n) "http://dead" 0 3
        ⟨[], [], 0⟩).1.visited ∧
    (∀ d M' : Nat,
      enumerate c7World c7World (fun n => n) "http://dead" d M'
          (enumerate c7World c7World (fun n => n) "http://dead" 0 3
            ⟨[], [], 0⟩).1
        = ((enumerate c7World c7World (fun n => n) "http://dead" 0 3
            ⟨[], [], 0⟩).1, [])) :=
  C10_failed_fetch_never_retried c7World c7World (fun n => n) "http://dead" 3
    ⟨[], [], 0⟩ (by decide) rfl

/- ------------------------------------------------------------------
C6 — depth guard and termination of the enumerator.
------------------------------------------------------------------ -/

/-- Recognize the enumerator's own page fetch (the `httpGet(baseUrl)` at
the top of a call), as opposed to probe, status, or baseline fetches. -/
def isEnumFetch : Ev → Bool
  | Ev.enumFetch _ => true
  | _ => false

theorem probeStep_filter_enum (world statusWorld : String → String)
    (baseUrl sig : String) (acc : List String × List Ev) (dir : String) :
    ((probeStep world statusWorld baseUrl sig acc dir).2).filter isEnumFetch
      = acc.2.filter isEnumFetch := by
  simp only [probeStep]
  split
  · rfl
  · split
    · simp [List.filter_append, List.filter, isEnumFetch]
    · split <;> simp [List.filter_append, List.filter, isEnumFetch]

theorem probeFold_filter_enum (world statusWorld : String → String)
    (baseUrl sig : String) : ∀ (ds : List String) (acc : List String × List Ev),
    ((ds.foldl (probeStep world statusWorld baseUrl sig) acc).2).filter
        isEnumFetch
      = acc.2.filter isEnumFetch := by
  intro ds
  induction ds with
  | nil => intro acc; rfl
  | cons d ds ih =>
    intro acc
    rw [List.foldl_cons, ih, probeStep_filter_enum]

theorem recFold_zero_filter_enum (world statusWorld : String → String)
    (randf : Nat → Nat) (baseUrl : String) :
    ∀ (ds : List String) (acc : EnumState × List Ev),
    ((ds.foldl (recStep (enumGo world statusWorld randf 0) baseUrl) acc).2).filter
        isEnumFetch
      = acc.2.filter isEnumFetch := by
  intro ds
  induction ds with
  | nil => intro acc; rfl
  | cons d ds ih =>
    intro acc
    rw [List.foldl_cons, ih]
    simp [recStep, enumGo, List.filter_append, List.filter, isEnumFetch]

theorem baselineStep_filter_enum (world : String → String) (randf : Nat → Nat)
    (st : EnumState) (u : String) :
    ((baselineStep world randf st u).2.2).filter isEnumFetch = [] := by
  unfold baselineStep
  split <;> simp [List.filter, isEnumFetch]

/-- The one-step unfolding of `enumGo` at positive fuel. -/
theorem enumGo_succ (world statusWorld : String → String) (randf : Nat → Nat)
    (fuel : Nat) (baseUrl : String) (st : EnumState) :
    enumGo world statusWorld randf (fuel + 1) baseUrl st =
      (let v := visitAndCheck st.visited baseUrl
       if !v.1 then (st, [])
       else
         let st1 : EnumState := ⟨v.2, st.cache, st.randCtr⟩
         let html := world baseUrl
         if html = "" then
           (st1, [Ev.outEnumerating baseUrl, Ev.enumFetch baseUrl,
             Ev.outNoResponse])
         else
           let b := baselineStep world randf st1 baseUrl
           let pr := commonDirs.foldl (probeStep world statusWorld baseUrl b.1)
             (linkDirsOf html, [])
           let rec2 := pr.1.foldl
             (recStep (enumGo world statusWorld randf fuel) baseUrl) (b.2.1, [])
           (rec2.1,
            Ev.outEnumerating baseUrl :: Ev.enumFetch baseUrl ::
              b.2.2 ++ pr.2 ++ rec2.2)) := rfl

/-- At a budget of one level, a fresh URL contributes exactly its own
page fetch: every recursive branch runs at zero budget and fetches
nothing. -/
theorem enumGo_one_filter_enum (world statusWorld : String → String)
    (randf : Nat → Nat) (u : String) (st : EnumState) (hv : u ∉ st.visited) :
    ((enumGo world statusWorld randf 1 u st).2).filter isEnumFetch
      = [Ev.enumFetch u] := by
  have hvc : visitAndCheck st.visited u = (true, u :: st.visited) := by
    simp [visitAndCheck, hv]
  rw [show (1 : Nat) = 0 + 1 from rfl, enumGo_succ, hvc]
  simp only [Bool.not_true, Bool.false_eq_true, if_false]
  by_cases hw : world u = ""
  · simp [hw, List.filter, isEnumFetch]
  · rw [if_neg hw]
    dsimp only
    rw [List.filter_append, List.filter_append, List.filter_cons,
      List.filter_cons]
    rw [baselineStep_filter_enum, probeFold_filter_enum,
      recFold_zero_filter_enum]
    simp [isEnumFetch, List.filter]

/-- C6: a call with `depth > maxDepth` returns immediately with no
output and no state change; consequently with `maxDepth = 0` the run
enumerates (fetches) only the root — the recursive calls made at depth 1
for found directories contribute nothing. -/
theorem C6_depth_guard (world statusWorld : String → String)
    (randf : Nat → Nat) :
    (∀ (baseUrl : String) (depth maxDepth : Nat) (st : EnumState),
      maxDepth < depth →
      enumerate world statusWorld randf baseUrl depth maxDepth st = (st, [])) ∧
    (∀ (baseUrl : String) (st : EnumState), baseUrl ∉ st.visited →
      ((enumerate world statusWorld randf baseUrl 0 0 st).2).filter isEnumFetch
        = [Ev.enumFetch baseUrl]) := by
  constructor
  · intro baseUrl depth maxDepth st h
    unfold enumerate
    rw [if_pos h]
  · intro baseUrl st hv
    rw [show enumerate world statusWorld randf baseUrl 0 0 st
        = enumGo world statusWorld randf 1 baseUrl st from by
      unfold enumerate
      rw [if_neg (by omega)]]
    exact enumGo_one_filter_enum world statusWorld randf baseUrl st hv

def c6World : String → String :=
  fun u => if u = "http://h" then "<a href=\"docs/\">D</a>" else ""

/-- Witness for C6: a depth-exceeded call is a no-op, and a concrete
`maxDepth = 0` run fetches only its root page. -/
theorem C6_depth_guard_witness :
    enumerate c6World c7World (fun n => n) "http://h" 1 0 ⟨[], [], 0⟩
      = (⟨[], [], 0⟩, []) ∧
    ((enumerate c6World c7World (fun n => n) "http://h" 0 0
        ⟨[], [], 0⟩).2).filter isEnumFetch = [Ev.enumFetch "http://h"] :=
  ⟨(C6_depth_guard c6World c7World (fun n => n)).1 "http://h" 1 0 ⟨[], [], 0⟩
     (by omega),
   (C6_depth_guard c6World c7World (fun n => n)).2 "http://h" ⟨[], [], 0⟩
     (by decide)⟩

/- ------------------------------------------------------------------
C9 — the flat recursive lister.
------------------------------------------------------------------ -/

/-- The lister's own page fetch. -/
def isListFetch : Ev → Bool
  | Ev.listFetch _ => true
  | _ => false

/-- Any fetch belonging to the enumerator's machinery: page enumeration,
candidate probe, status probe, or baseline probe. -/
def isCoreFetch : Ev → Bool
  | Ev.enumFetch _ => true
  | Ev.probeFetch _ => true
  | Ev.baselineFetch _ => true
  | Ev.statusFetch _ => true
  | _ => false

/-- The lister never performs any of the enumerator's fetches: no
probing, no baseline, no visited-set machinery. -/
theorem listGo_no_core (world : String → String) :
    ∀ (fuel : Nat) (url : String),
    (listGo world fuel url).filter isCoreFetch = [] := by
  intro fuel
  induction fuel with
  | zero => intro url; rfl
  | succ n ih =>
    intro url
    rw [List.filter_eq_nil_iff]
    intro a ha
    simp only [listGo] at ha
    rcases List.mem_cons.mp ha with h | ha
    · subst h; simp [isCoreFetch]
    rcases List.mem_cons.mp ha with h | ha
    · subst h; simp [isCoreFetch]
    split at ha
    · simp only [List.mem_singleton] at ha
      subst ha; simp [isCoreFetch]
    split at ha
    · simp only [List.mem_singleton] at ha
      subst ha; simp [isCoreFetch]
    split at ha
    · simp only [List.mem_singleton] at ha
      subst ha; simp [isCoreFetch]
    rcases List.mem_append.mp ha with h | h
    · rcases List.mem_map.mp h with ⟨x, _, hx⟩
      rw [← hx]; simp [isCoreFetch]
    · rcases List.mem_flatten.mp h with ⟨l, hl, hal⟩
      rcases List.mem_map.mp hl with ⟨d, _, hld⟩
      rw [← hld] at hal
      rcases List.mem_cons.mp hal with h2 | h2
      · subst h2; simp [isCoreFetch]
      · exact List.filter_eq_nil_iff.mp (ih (combineUrl url d)) a h2

/-- A concrete self-looping target: the page links back to its own URL. -/
def cycleUrl : String := "http://c/"

def cyclePage : String := "<a href=\"http://c/\">loop</a>"

def cycleWorld : String → String :=
  fun v => if v = cycleUrl then cyclePage else ""

/-- On the self-looping target, the lister fetches the same URL once per
budget level: there is no visited guard, and the run still stops after
exactly `fuel` levels. -/
theorem listGo_cycle_fetches : ∀ fuel : Nat,
    (listGo cycleWorld fuel cycleUrl).filter isListFetch
      = List.replicate fuel (Ev.listFetch cycleUrl) := by
  intro fuel
  induction fuel with
  | zero => rfl
  | succ n ih =>
    have hw : cycleWorld cycleUrl = cyclePage := by simp [cycleWorld]
    have hne : ¬(cyclePage = "") := by decide
    have hl : extractLinks cyclePage = ["http://c/"] := by decide
    have hc : combineUrl cycleUrl "http://c/" = cycleUrl := by decide
    have hdirs : (["http://c/"] : List String).filter
        (fun l => l != "../" && l != "./" && l != "" && endsSlash l)
        = ["http://c/"] := by decide
    have hfiles : (["http://c/"] : List String).filter
        (fun l => l != "../" && l != "./" && l != "" && !endsSlash l)
        = [] := by decide
    simp only [listGo, hw, hne, hl, hdirs, hfiles, hc, if_false,
      List.isEmpty_cons, List.isEmpty_nil, Bool.and_true, Bool.and_false,
      List.map_nil, List.map_cons, List.flatten, List.nil_append,
      List.append_nil]
    simp [List.filter, isListFetch, ih, List.replicate_succ]
    rw [hc]
    exact ih

/-- C9: the flat lister is a no-op past the depth bound; it issues none
of the enumerator's fetches (no probes, no baseline, no visited
machinery); and on a cyclic link graph it refetches the same URL once
per level, bounded only by the depth budget. -/
theorem C9_flat_lister (world : String → String) :
    (∀ (url : String) (depth maxDepth : Nat), maxDepth < depth →
      listGlobalRecursive world url depth maxDepth = []) ∧
    (∀ (fuel : Nat) (url : String),
      (listGo world fuel url).filter isCoreFetch = []) ∧
    (∀ fuel : Nat, (listGo cycleWorld fuel cycleUrl).filter isListFetch
      = List.replicate fuel (Ev.listFetch cycleUrl)) := by
  refine ⟨?_, listGo_no_core world, listGo_cycle_fetches⟩
  intro url depth maxDepth h
  unfold listGlobalRecursive
  rw [if_pos h]

/-- Witness for C9 on the concrete cyclic target. -/
theorem C9_flat_lister_witness :
    listGlobalRecursive cycleWorld "u" 1 0 = [] ∧
    (listGo cycleWorld 2 cycleUrl).filter isCoreFetch = [] ∧
    (listGo cycleWorld 2 cycleUrl).filter isListFetch
      = List.replicate 2 (Ev.listFetch cycleUrl) :=
  ⟨(C9_flat_lister cycleWorld).1 "u" 1 0 (by omega),
   (C9_flat_lister cycleWorld).2.1 2 cycleUrl,
   (C9_flat_lister cycleWorld).2.2 2⟩

end TCLI
